import Mathlib

/-!
Verification of the control-flow converter in
`tensorflow/python/autograph/converters/control_flow.py`.

The converter rewrites `if` / `while` / `for` statements into calls to
runtime primitives, threading explicit state tuples.  This file gives a
shallow embedding of its analysis and synthesis logic.

Modelling conventions:
* A symbol (qualified name, `QN` in the source) is a natural number.  The
  `Symbol` class itself is not part of the repository slice, so its
  interface is modelled from the spec as an environment `SymEnv` giving,
  for every symbol, its `is_composite` classification, its `owner_set`,
  its `support_set` and its textual form `ssf`.
* A `Scope` carries the `modified` / `read` / `referenced` symbol sets
  attached per block by the upstream static analysis.
* Python iterates a `set` in an unspecified order; wherever the source's
  behaviour can depend on that order (the accumulation loop in
  `_determine_aliased_symbols`) the embedding takes the iteration order
  as an explicit list argument.  Where the result is a set (`frozenset`,
  set comprehensions) the embedding uses `Finset` directly.
* Statement bodies of the rewritten templates are abstracted: the embedding
  records the structural data the claims are about (names generated,
  alias bindings, return expressions, state tuples, guard assignments,
  extra dependencies), not the pretty-printed code.
-/

/-- Modelled from the spec: the symbol interface (`is_composite`,
`owner_set`, `support_set`, `ssf`) of the external Symbol/QN class, which
is outside the repository slice.  Symbols are drawn from `Nat`. -/
structure SymEnv where
  is_composite : Nat → Bool
  owner_set : Nat → Finset Nat
  support_set : Nat → Finset Nat
  ssf : Nat → String

/-- A scope annotation attached to a block by the upstream analysis:
`modified`, `read` and `referenced` symbol sets. -/
structure Scope where
  modified : Finset Nat
  read : Finset Nat
  referenced : Finset Nat

/-- Node-level annotations of a loop node (While or For): the body scope
plus `defined_in`, `live_in`, `live_out`. -/
structure LoopNode where
  body_scope : Scope
  defined_in : Finset Nat
  live_in : Finset Nat
  live_out : Finset Nat

/-- Result triple of `_get_loop_state`. -/
structure LoopStateInfo where
  loop_state : Finset Nat
  reserved_symbols : Finset Nat
  possibly_undefs : Finset Nat

/-- Embedding of `_get_loop_state` (control_flow.py lines 270-307).
A symbol of `body_scope.modified` is kept in the loop state unless it is
neither live-in nor live-out, or it is composite with some support-set
member not live into the loop.  `possibly_undefs` is the simple-symbol
part of the loop state not in `defined_in`. -/
def get_loop_state (E : SymEnv) (node : LoopNode) : LoopStateInfo :=
  let loop_state := node.body_scope.modified.filter (fun s =>
    (s ∈ node.live_in ∨ s ∈ node.live_out) ∧
    (E.is_composite s = true → E.support_set s ⊆ node.live_in))
  let undefined_lives := loop_state \ node.defined_in
  let possibly_undefs := undefined_lives.filter (fun v => E.is_composite v = false)
  { loop_state := loop_state
    reserved_symbols := node.body_scope.referenced
    possibly_undefs := possibly_undefs }

/-- Embedding of the `returned_from_cond` computation in `visit_If`
(control_flow.py lines 157-166): a symbol modified in either branch is
returned iff it is live-out, or composite with a live-out owner. -/
def returned_from_cond (E : SymEnv) (body_modified orelse_modified live_out : Finset Nat) :
    Finset Nat :=
  (body_modified ∪ orelse_modified).filter (fun s =>
    s ∈ live_out ∨ (E.is_composite s = true ∧ (live_out ∩ E.owner_set s) ≠ ∅))

/-- Embedding of `created_in_body` (control_flow.py line 168): symbols
modified in the body, among the returned set, absent from `defined_in`. -/
def created_in_body (E : SymEnv) (body_modified orelse_modified live_out defined_in : Finset Nat) :
    Finset Nat :=
  (body_modified ∩ returned_from_cond E body_modified orelse_modified live_out) \ defined_in

/-- Embedding of `created_in_orelse` (control_flow.py line 169). -/
def created_in_orelse (E : SymEnv) (body_modified orelse_modified live_out defined_in : Finset Nat) :
    Finset Nat :=
  (orelse_modified ∩ returned_from_cond E body_modified orelse_modified live_out) \ defined_in

/-- A deterministic enumeration of a symbol set, standing for the
iteration order used when the source materialises a set into a tuple. -/
def symList (s : Finset Nat) : List Nat :=
  s.sort (fun a b => a ≤ b)

/-- Embedding of `possibly_undefined` in `visit_If` (control_flow.py
lines 171-180): the symmetric difference of the non-composite members of
`created_in_body` and `created_in_orelse`. -/
def possibly_undefined_cond (E : SymEnv)
    (body_modified orelse_modified live_out defined_in : Finset Nat) : Finset Nat :=
  let basic_created_in_body :=
    (created_in_body E body_modified orelse_modified live_out defined_in).filter
      (fun s => ¬ E.is_composite s = true)
  let basic_created_in_orelse :=
    (created_in_orelse E body_modified orelse_modified live_out defined_in).filter
      (fun s => ¬ E.is_composite s = true)
  (basic_created_in_body \ basic_created_in_orelse) ∪
    (basic_created_in_orelse \ basic_created_in_body)

/-- One iteration of the accumulation loop in `_determine_aliased_symbols`
(control_flow.py lines 134-138): a composite symbol whose owner set meets
the accumulated live set is added to it. -/
def alias_step (E : SymEnv) (acc : Finset Nat) (s : Nat) : Finset Nat :=
  if E.is_composite s = true ∧ (acc ∩ E.owner_set s) ≠ ∅ then insert s acc else acc

/-- The accumulated `block_live_in` set after the loop of
`_determine_aliased_symbols`, iterating `scope.modified` in the order
given by `order`. -/
def adjust_live_in (E : SymEnv) (order : List Nat) (live0 : Finset Nat) : Finset Nat :=
  order.foldl (alias_step E) live0

/-- Embedding of `_determine_aliased_symbols` (control_flow.py lines
114-139).  `block_live_in` is the live-in set of the block's first
statement, or `none` for an empty block (which the source treats as the
empty set); `order` is the iteration order of `scope.modified`. -/
def determine_aliased_symbols (E : SymEnv) (scope : Scope) (order : List Nat)
    (node_defined_in : Finset Nat) (block_live_in : Option (Finset Nat)) : Finset Nat :=
  scope.modified ∩ node_defined_in ∩ adjust_live_in E order (block_live_in.getD ∅)

/-- A synthetic binding `var = ag__.Undefined(diag)` emitted by
`_create_undefined_assigns`. -/
structure Assign where
  target : Nat
  diag : String
deriving DecidableEq

/-- Embedding of `_create_undefined_assigns` (control_flow.py lines
258-268): one sentinel binding per symbol, built from the symbol's
textual form `ssf`. -/
def create_undefined_assigns (E : SymEnv) (undefined_symbols : List Nat) : List Assign :=
  undefined_symbols.map (fun s => { target := s, diag := E.ssf s })

/-- An element of a branch callable's return expression: a symbol, a raw
generated name (an alias), or the `ag__.match_staging_level(1, cond_var)`
placeholder. -/
inductive CondRet
  | sym (s : Nat)
  | name (n : String)
  | placeholder (cond_var : String)
deriving DecidableEq

/-- The return statement synthesized by `_create_cond_branch`: `return 1`
(no returns), `return r` (one), or `return (rs,)` (several). -/
inductive RetStmt
  | dummy
  | one (r : CondRet)
  | tup (rs : List CondRet)
deriving DecidableEq

/-- The list of returned expressions of a `RetStmt`. -/
def RetStmt.items : RetStmt → List CondRet
  | .dummy => []
  | .one r => [r]
  | .tup rs => rs

/-- The callable definition synthesized by `_create_cond_branch`:
its name, the aliased-parameter bindings (`new, = orig,`, absent when
`aliased_orig` is empty), and the return statement.  The (renamed) body
statements are abstracted away. -/
structure BranchDef where
  name : String
  aliased_orig : List Nat
  aliased_new : List String
  ret : RetStmt
deriving DecidableEq

/-- Embedding of `_create_cond_branch` (control_flow.py lines 49-89). -/
def create_cond_branch (body_name : String) (aliased_orig_names : List Nat)
    (aliased_new_names : List String) (returns : List CondRet) : BranchDef :=
  let return_stmt : RetStmt :=
    match returns with
    | [] => .dummy
    | [r] => .one r
    | rs => .tup rs
  { name := body_name
    aliased_orig := aliased_orig_names
    aliased_new := aliased_new_names
    ret := return_stmt }

/-- The target of the assignment of the conditional primitive's result:
a single symbol, or a tuple of symbols (control_flow.py lines 206-211). -/
inductive CondResults
  | single (s : Nat)
  | tuple (ss : List Nat)
deriving DecidableEq

/-- The original symbols of a `CondResults`. -/
def CondResults.syms : CondResults → List Nat
  | .single s => [s]
  | .tuple ss => ss

/-- The call to the conditional-execution primitive: with its result
assigned (`results = ag__.if_stmt(...)`) or bare (`ag__.if_stmt(...)`). -/
inductive CondExpr
  | assigned (results : CondResults) (test : String) (body_name orelse_name : String)
  | bare (test : String) (body_name orelse_name : String)
deriving DecidableEq

/-- Embedding of `_create_cond_expr` (control_flow.py lines 91-107). -/
def create_cond_expr (results : Option CondResults) (test : String)
    (body_name orelse_name : String) : CondExpr :=
  match results with
  | some r => .assigned r test body_name orelse_name
  | none => .bare test body_name orelse_name

/-- Annotations of a Conditional node: the two branch scopes, node-level
`defined_in` / `live_out`, the live-in set of each branch's first
statement (`none` for an empty branch block), and the iteration order of
each branch's `modified` set. -/
structure IfNode where
  body_scope : Scope
  orelse_scope : Scope
  defined_in : Finset Nat
  live_out : Finset Nat
  body_block_live_in : Option (Finset Nat)
  orelse_block_live_in : Option (Finset Nat)
  body_modified_order : List Nat
  orelse_modified_order : List Nat

/-- The statements emitted by `visit_If` in order: the undefined-guard
bindings, the test assignment `cond_var = test`, the two branch callable
definitions, and the primitive call. -/
structure IfResult where
  undefined_assigns : List Assign
  cond_var_name : String
  need_alias_body : Finset Nat
  need_alias_orelse : Finset Nat
  body_def : BranchDef
  orelse_def : BranchDef
  cond_expr : CondExpr

/-- Embedding of `visit_If` (control_flow.py lines 141-256).  `namer`
models `self.ctx.namer.new_symbol` as a function of the name stem and the
reserved symbol set. -/
def visit_If (E : SymEnv) (namer : String → Finset Nat → String) (node : IfNode) : IfResult :=
  let need_alias_in_body :=
    determine_aliased_symbols E node.body_scope node.body_modified_order
      node.defined_in node.body_block_live_in
  let need_alias_in_orelse :=
    determine_aliased_symbols E node.orelse_scope node.orelse_modified_order
      node.defined_in node.orelse_block_live_in
  let returned :=
    returned_from_cond E node.body_scope.modified node.orelse_scope.modified node.live_out
  let possibly_undefined :=
    possibly_undefined_cond E node.body_scope.modified node.orelse_scope.modified
      node.live_out node.defined_in
  let aliased_body_orig_names := symList need_alias_in_body
  let aliased_orelse_orig_names := symList need_alias_in_orelse
  let aliased_body_new_names :=
    aliased_body_orig_names.map (fun s => namer (E.ssf s) node.body_scope.referenced)
  let aliased_orelse_new_names :=
    aliased_orelse_orig_names.map (fun s => namer (E.ssf s) node.orelse_scope.referenced)
  let cond_var_name := namer "cond" node.body_scope.referenced
  let body_name := namer "if_true" node.body_scope.referenced
  let orelse_name := namer "if_false" node.orelse_scope.referenced
  let returned_list := symList returned
  let returned_from_body : List CondRet :=
    if returned_list = [] then [.placeholder cond_var_name]
    else returned_list.map (fun s =>
      if s ∈ need_alias_in_body then .name (namer (E.ssf s) node.body_scope.referenced)
      else .sym s)
  let returned_from_orelse : List CondRet :=
    if returned_list = [] then [.placeholder cond_var_name]
    else returned_list.map (fun s =>
      if s ∈ need_alias_in_orelse then .name (namer (E.ssf s) node.orelse_scope.referenced)
      else .sym s)
  let cond_results : Option CondResults :=
    match returned_list with
    | [] => none
    | [s] => some (.single s)
    | ss => some (.tuple ss)
  { undefined_assigns := create_undefined_assigns E (symList possibly_undefined)
    cond_var_name := cond_var_name
    need_alias_body := need_alias_in_body
    need_alias_orelse := need_alias_in_orelse
    body_def := create_cond_branch body_name aliased_body_orig_names
      aliased_body_new_names returned_from_body
    orelse_def := create_cond_branch orelse_name aliased_orelse_orig_names
      aliased_orelse_new_names returned_from_orelse
    cond_expr := create_cond_expr cond_results cond_var_name body_name orelse_name }

/-- Embedding of the `cond_closure` computation in `visit_While`
(control_flow.py lines 346-349): the union of the support sets of every
symbol read by the loop condition. -/
def cond_closure (E : SymEnv) (cond_read : Finset Nat) : Finset Nat :=
  cond_read.biUnion E.support_set

/-- The construct emitted by `visit_While`: either the with-state template
(state parameters, state tuple assigned back) or the no-state template.
Both carry the extra-dependencies tuple passed to `ag__.while_stmt`. -/
inductive WhileCore
  | withState (test_name : String) (state_params : List String) (body_name : String)
      (state : List Nat) (extra_deps : List Nat)
  | noState (test_name : String) (body_name : String) (extra_deps : List Nat)
deriving DecidableEq

/-- The extra-dependencies tuple of a `WhileCore`. -/
def WhileCore.extraDeps : WhileCore → List Nat
  | .withState _ _ _ _ d => d
  | .noState _ _ d => d

/-- Output of `visit_While`: the undefined-guard bindings followed by the
rewritten construct. -/
structure WhileResult where
  undefined_assigns : List Assign
  core : WhileCore

/-- Embedding of `visit_While` (control_flow.py lines 328-396).
`cond_read` is `cond_scope.read`.  The loop state and the extra
dependencies are computed once; the template is chosen by whether the
loop state is empty, and both templates receive the extra-dependencies
tuple. -/
def visit_While (E : SymEnv) (namer : String → Finset Nat → String)
    (node : LoopNode) (cond_read : Finset Nat) : WhileResult :=
  let info := get_loop_state E node
  let cc := cond_closure E cond_read
  let state_list := symList info.loop_state
  let state_ssf := state_list.map (fun s => namer (E.ssf s) info.reserved_symbols)
  let test_name := namer "loop_test" info.reserved_symbols
  let body_name := namer "loop_body" info.reserved_symbols
  let core :=
    if state_list = [] then WhileCore.noState test_name body_name (symList cc)
    else WhileCore.withState test_name state_ssf body_name state_list (symList cc)
  { undefined_assigns := create_undefined_assigns E (symList info.possibly_undefs)
    core := core }

/-- The construct emitted by `visit_For`: the early-stopping template, the
with-state template, or the no-state template (control_flow.py lines
398-463). -/
inductive ForCore
  | earlyStopping (extra_test_name : String) (body_name : String)
      (state_params : List String) (state : List Nat)
  | withState (body_name : String) (state_params : List String) (state : List Nat)
  | withoutState (body_name : String)
deriving DecidableEq

/-- Output of a successful `visit_For`: the undefined-guard bindings
followed by the rewritten construct. -/
structure ForResult where
  undefined_assigns : List Assign
  core : ForCore

/-- Embedding of `visit_For` (control_flow.py lines 465-496).  The assert
on line 491 (early stopping flagged with empty loop state) is modelled as
an error result produced before any output is built. -/
def visit_For (E : SymEnv) (namer : String → Finset Nat → String)
    (node : LoopNode) (has_extra_test : Bool) : Except String ForResult :=
  let info := get_loop_state E node
  let state_list := symList info.loop_state
  let state_ssf := state_list.map (fun s => namer (E.ssf s) info.reserved_symbols)
  let body_name := namer "loop_body" info.reserved_symbols
  if state_list ≠ [] then
    if has_extra_test then
      let extra_test_name := namer "extra_test" info.reserved_symbols
      .ok { undefined_assigns := create_undefined_assigns E (symList info.possibly_undefs)
            core := .earlyStopping extra_test_name body_name state_ssf state_list }
    else
      .ok { undefined_assigns := create_undefined_assigns E (symList info.possibly_undefs)
            core := .withState body_name state_ssf state_list }
  else
    if has_extra_test then
      .error "Early stopping (e.g. break and/or return) should create state variables."
    else
      .ok { undefined_assigns := create_undefined_assigns E (symList info.possibly_undefs)
            core := .withoutState body_name }

/-- The rule the spec states for closure-adjusted liveness of a branch:
a symbol counts as live at the branch's first statement if it is in that
statement's live-in set, or it is composite and some member of its owner
set is in that live-in set.  Stated from the spec's words, to be compared
with the accumulation loop the source runs. -/
def spec_closure_adjusted_live (E : SymEnv) (live0 : Finset Nat) (s : Nat) : Prop :=
  s ∈ live0 ∨ (E.is_composite s = true ∧ ∃ t ∈ E.owner_set s, t ∈ live0)

/-- Well-formedness of the symbol universe, modelled from the spec's
description of owner sets as the root/parent symbols of a composite: the
owner set of a composite owner of `s` consists of parents of `s` as well.
It holds of the repository's qualified names, whose owner set is the set
of proper prefixes of the access path. -/
def OwnerClosed (E : SymEnv) : Prop :=
  ∀ s t, t ∈ E.owner_set s → E.is_composite t = true → E.owner_set t ⊆ E.owner_set s

/-- A symbol universe with only simple symbols; `ssf` is a fixed name. -/
def sampleEnv : SymEnv where
  is_composite := fun _ => false
  owner_set := fun _ => ∅
  support_set := fun s => {s}
  ssf := fun _ => "y"

/-- A symbol universe where symbol 1 is composite with root 0 (as in
`x.a` rooted at `x`). -/
def compositeEnv : SymEnv where
  is_composite := fun n => n == 1
  owner_set := fun n => if n = 1 then {0} else ∅
  support_set := fun n => if n = 1 then {0} else {n}
  ssf := fun _ => "x"

/-- A fixed unique-name generator model. -/
def sampleNamer : String → Finset Nat → String := fun stem _ => stem ++ "_1"

/-- The conditional `if cond: y = 1` (symbol 0 is `y`) with `y` live-out,
no else branch, and `y` not defined before the conditional. -/
def ifScenarioNode : IfNode where
  body_scope := { modified := {0}, read := ∅, referenced := {0} }
  orelse_scope := { modified := ∅, read := ∅, referenced := ∅ }
  defined_in := ∅
  live_out := {0}
  body_block_live_in := some ∅
  orelse_block_live_in := none
  body_modified_order := [0]
  orelse_modified_order := []

/-- A conditional with no modifications at all: its returned set is
empty. -/
def emptyIfNode : IfNode where
  body_scope := { modified := ∅, read := ∅, referenced := ∅ }
  orelse_scope := { modified := ∅, read := ∅, referenced := ∅ }
  defined_in := ∅
  live_out := ∅
  body_block_live_in := none
  orelse_block_live_in := none
  body_modified_order := []
  orelse_modified_order := []

/-- A conditional mutating the composite symbol 1 (`x.a`), whose root 0
(`x`) is live at the body's first statement and defined before the
conditional. -/
def aliasIfNode : IfNode where
  body_scope := { modified := {1}, read := ∅, referenced := {0, 1} }
  orelse_scope := { modified := ∅, read := ∅, referenced := ∅ }
  defined_in := {0, 1}
  live_out := ∅
  body_block_live_in := some {0}
  orelse_block_live_in := none
  body_modified_order := [1]
  orelse_modified_order := []

/-- A loop whose body assigns symbol 0, with symbol 0 live out of the
loop but not defined before it. -/
def loopScenarioNode : LoopNode where
  body_scope := { modified := {0}, read := ∅, referenced := {0} }
  defined_in := ∅
  live_in := ∅
  live_out := {0}

/-- A loop with no modified symbols: its loop state is empty. -/
def emptyLoopNode : LoopNode where
  body_scope := { modified := ∅, read := ∅, referenced := ∅ }
  defined_in := ∅
  live_in := ∅
  live_out := ∅

/-- C1: a symbol is in the loop state iff it is modified in the body, is
live-in or live-out, and (when composite) has its whole support set
live-in; in particular a symbol modified only inside the loop and neither
live-in nor live-out is never in the loop state. -/
theorem loop_state_characterization (E : SymEnv) (node : LoopNode) (s : Nat) :
    (s ∈ (get_loop_state E node).loop_state ↔
      (s ∈ node.body_scope.modified ∧
        (s ∈ node.live_in ∨ s ∈ node.live_out) ∧
        (E.is_composite s = true → E.support_set s ⊆ node.live_in))) ∧
    (s ∈ node.body_scope.modified → s ∉ node.live_in → s ∉ node.live_out →
      s ∉ (get_loop_state E node).loop_state) := by
  constructor
  · simp [get_loop_state, Finset.mem_filter, and_assoc]
  · intro _ h1 h2 hmem
    simp [get_loop_state, Finset.mem_filter] at hmem
    rcases hmem.2.1 with h | h
    · exact h1 h
    · exact h2 h

/-- C1 witness: a symbol modified in the body but neither live-in nor
live-out is excluded from the loop state at a concrete node. -/
theorem loop_state_characterization_witness :
    0 ∉ (get_loop_state sampleEnv
          { body_scope := { modified := {0}, read := ∅, referenced := {0} },
            defined_in := ∅, live_in := ∅, live_out := ∅ }).loop_state :=
  (loop_state_characterization sampleEnv _ 0).2 (by decide) (by decide) (by decide)

/-- C2: a symbol is returned from the conditional iff it is modified in
one of the branches and is either live-out or composite with at least one
owner-set member live-out. -/
theorem returned_from_cond_characterization (E : SymEnv)
    (body_modified orelse_modified live_out : Finset Nat) (s : Nat) :
    s ∈ returned_from_cond E body_modified orelse_modified live_out ↔
      (s ∈ body_modified ∪ orelse_modified ∧
        (s ∈ live_out ∨
          (E.is_composite s = true ∧ ∃ t ∈ E.owner_set s, t ∈ live_out))) := by
  simp only [returned_from_cond, Finset.mem_filter]
  constructor
  · rintro ⟨hm, hlive | ⟨hc, hne⟩⟩
    · exact ⟨hm, Or.inl hlive⟩
    · rcases Finset.nonempty_iff_ne_empty.mpr hne with ⟨t, ht⟩
      rcases Finset.mem_inter.mp ht with ⟨ht1, ht2⟩
      exact ⟨hm, Or.inr ⟨hc, t, ht2, ht1⟩⟩
  · rintro ⟨hm, hlive | ⟨hc, t, hto, htl⟩⟩
    · exact ⟨hm, Or.inl hlive⟩
    · refine ⟨hm, Or.inr ⟨hc, Finset.nonempty_iff_ne_empty.mp ⟨t, ?_⟩⟩⟩
      exact Finset.mem_inter.mpr ⟨htl, hto⟩

/-- C2 witness: a composite symbol modified in the body whose owner is
live-out is returned from a concrete conditional even though the symbol
itself is not live-out. -/
theorem returned_from_cond_characterization_witness :
    1 ∈ returned_from_cond compositeEnv {1} ∅ {0} :=
  (returned_from_cond_characterization compositeEnv {1} ∅ {0} 1).mpr (by decide)

theorem symList_nodup (s : Finset Nat) : (symList s).Nodup :=
  Finset.sort_nodup _ s

theorem mem_symList (s : Finset Nat) (a : Nat) : a ∈ symList s ↔ a ∈ s :=
  Finset.mem_sort _

theorem symList_eq_nil (s : Finset Nat) : symList s = [] ↔ s = ∅ := by
  constructor
  · intro h
    ext a
    simp only [Finset.not_mem_empty, iff_false]
    intro ha
    have := (mem_symList s a).mpr ha
    rw [h] at this
    exact (List.not_mem_nil a) this
  · rintro rfl
    simp [symList]

theorem count_undefined_assigns (E : SymEnv) (l : List Nat) (hl : l.Nodup) (s : Nat) :
    (create_undefined_assigns E l).count { target := s, diag := E.ssf s } =
      if s ∈ l then 1 else 0 := by
  induction l with
  | nil => simp [create_undefined_assigns]
  | cons a tl ih =>
    rcases List.nodup_cons.mp hl with ⟨ha, htl⟩
    have hrec := ih htl
    simp only [create_undefined_assigns, List.map_cons, List.count_cons] at hrec ⊢
    rw [hrec]
    by_cases h : a = s
    · subst h
      simp [ha]
    · simp [List.mem_cons, h, Ne.symm h, Assign.mk.injEq]

/-- C3: a symbol receives an undefined-guard binding before a rewritten
conditional iff it is a simple symbol in exactly one of `created_in_body`
and `created_in_orelse` (the symmetric difference); each such symbol
receives exactly one guard binding, and a symbol assigned in both
branches receives none. -/
theorem conditional_possibly_undefined_guards (E : SymEnv)
    (namer : String → Finset Nat → String) (node : IfNode) (s : Nat) :
    (s ∈ possibly_undefined_cond E node.body_scope.modified node.orelse_scope.modified
        node.live_out node.defined_in ↔
      (E.is_composite s = false ∧
        ((s ∈ created_in_body E node.body_scope.modified node.orelse_scope.modified
            node.live_out node.defined_in ∧
          s ∉ created_in_orelse E node.body_scope.modified node.orelse_scope.modified
            node.live_out node.defined_in) ∨
         (s ∈ created_in_orelse E node.body_scope.modified node.orelse_scope.modified
            node.live_out node.defined_in ∧
          s ∉ created_in_body E node.body_scope.modified node.orelse_scope.modified
            node.live_out node.defined_in)))) ∧
    ((visit_If E namer node).undefined_assigns.count { target := s, diag := E.ssf s } =
      if s ∈ possibly_undefined_cond E node.body_scope.modified node.orelse_scope.modified
          node.live_out node.defined_in then 1 else 0) ∧
    (s ∈ node.body_scope.modified → s ∈ node.orelse_scope.modified →
      s ∉ possibly_undefined_cond E node.body_scope.modified node.orelse_scope.modified
        node.live_out node.defined_in) := by
  refine ⟨?_, ?_, ?_⟩
  · simp only [possibly_undefined_cond, Finset.mem_union, Finset.mem_sdiff, Finset.mem_filter,
      Bool.not_eq_true]
    tauto
  · have ha : (visit_If E namer node).undefined_assigns =
        create_undefined_assigns E (symList (possibly_undefined_cond E
          node.body_scope.modified node.orelse_scope.modified
          node.live_out node.defined_in)) := rfl
    rw [ha, count_undefined_assigns E _ (symList_nodup _) s]
    simp [mem_symList]
  · intro hb ho hpu
    simp only [possibly_undefined_cond, Finset.mem_union, Finset.mem_sdiff,
      Finset.mem_filter] at hpu
    have hiff : s ∈ created_in_body E node.body_scope.modified node.orelse_scope.modified
        node.live_out node.defined_in ↔
        s ∈ created_in_orelse E node.body_scope.modified node.orelse_scope.modified
          node.live_out node.defined_in := by
      simp only [created_in_body, created_in_orelse, Finset.mem_sdiff, Finset.mem_inter]
      tauto
    tauto

/-- C3 witness: in `if cond: y = 1` with no else branch, `y` live-out and
not defined before, exactly one undefined-guard binding for `y` is
emitted. -/
theorem conditional_possibly_undefined_guards_witness :
    (visit_If sampleEnv sampleNamer ifScenarioNode).undefined_assigns.count
      { target := 0, diag := sampleEnv.ssf 0 } = 1 := by
  have h := (conditional_possibly_undefined_guards sampleEnv sampleNamer ifScenarioNode 0).2.1
  rw [h]
  decide

/-- C5: for loop nodes, the possibly-undefined set is exactly the simple
part of the loop state not in `defined_in`, and each member receives
exactly one sentinel binding (built from its textual name) in the output
of the while rewriter, and of the for rewriter whenever it succeeds. -/
theorem loop_possibly_undefined_guards (E : SymEnv)
    (namer : String → Finset Nat → String) (node : LoopNode)
    (cond_read : Finset Nat) (het : Bool) (s : Nat) :
    (s ∈ (get_loop_state E node).possibly_undefs ↔
      (s ∈ (get_loop_state E node).loop_state ∧ s ∉ node.defined_in ∧
        E.is_composite s = false)) ∧
    ((visit_While E namer node cond_read).undefined_assigns.count
        { target := s, diag := E.ssf s } =
      if s ∈ (get_loop_state E node).possibly_undefs then 1 else 0) ∧
    (∀ r, visit_For E namer node het = .ok r →
      r.undefined_assigns.count { target := s, diag := E.ssf s } =
        if s ∈ (get_loop_state E node).possibly_undefs then 1 else 0) := by
  refine ⟨?_, ?_, ?_⟩
  · simp only [get_loop_state, Finset.mem_filter, Finset.mem_sdiff]
    tauto
  · have ha : (visit_While E namer node cond_read).undefined_assigns =
        create_undefined_assigns E (symList (get_loop_state E node).possibly_undefs) := rfl
    rw [ha, count_undefined_assigns E _ (symList_nodup _) s]
    simp [mem_symList]
  · intro r hr
    have hcount : (create_undefined_assigns E
          (symList (get_loop_state E node).possibly_undefs)).count
          { target := s, diag := E.ssf s } =
        if s ∈ (get_loop_state E node).possibly_undefs then 1 else 0 := by
      rw [count_undefined_assigns E _ (symList_nodup _) s]
      simp [mem_symList]
    simp only [visit_For] at hr
    split_ifs at hr
    all_goals cases hr
    all_goals exact hcount

/-- C5 witness: a loop assigning a symbol that is live-out but not
defined before the loop gets exactly one sentinel binding for it. -/
theorem loop_possibly_undefined_guards_witness :
    (visit_While sampleEnv sampleNamer loopScenarioNode ∅).undefined_assigns.count
      { target := 0, diag := sampleEnv.ssf 0 } = 1 := by
  have h := (loop_possibly_undefined_guards sampleEnv sampleNamer loopScenarioNode ∅ false 0).2.1
  rw [h]
  decide

/-- C6: the extra-dependencies tuple the while rewriter passes to the
loop-execution primitive is exactly the union of the support sets of the
symbols read by the loop condition, in both the with-state and the
no-state cases. -/
theorem while_extra_deps_closure (E : SymEnv)
    (namer : String → Finset Nat → String) (node : LoopNode) (cond_read : Finset Nat) :
    (((visit_While E namer node cond_read).core.extraDeps).toFinset =
      cond_closure E cond_read) ∧
    (∀ s, s ∈ cond_closure E cond_read ↔ ∃ t ∈ cond_read, s ∈ E.support_set t) := by
  constructor
  · have hcases : (visit_While E namer node cond_read).core.extraDeps =
        symList (cond_closure E cond_read) := by
      simp only [visit_While]
      by_cases h : symList (get_loop_state E node).loop_state = []
      · simp [h, WhileCore.extraDeps]
      · simp [h, WhileCore.extraDeps]
    rw [hcases]
    simp [symList, Finset.sort_toFinset]
  · intro s
    simp [cond_closure, Finset.mem_biUnion]

/-- C6 witness: the extra-dependencies set equals the condition-read
support closure at a concrete while loop. -/
theorem while_extra_deps_closure_witness :
    ((visit_While sampleEnv sampleNamer loopScenarioNode {0}).core.extraDeps).toFinset =
      cond_closure sampleEnv {0} :=
  (while_extra_deps_closure sampleEnv sampleNamer loopScenarioNode {0}).1

theorem adjust_live_in_mem (E : SymEnv) (hWF : OwnerClosed E) (live0 : Finset Nat)
    (order : List Nat) :
    ∀ acc : Finset Nat, live0 ⊆ acc →
      (∀ x ∈ acc, x ∈ live0 ∨ (E.is_composite x = true ∧ (live0 ∩ E.owner_set x) ≠ ∅)) →
      ∀ s, s ∈ order.foldl (alias_step E) acc ↔
        (s ∈ acc ∨ (s ∈ order ∧ E.is_composite s = true ∧ (live0 ∩ E.owner_set s) ≠ ∅)) := by
  induction order with
  | nil =>
    intro acc _ _ s
    simp
  | cons a tl ih =>
    intro acc hsub hinv s
    by_cases hc : E.is_composite a = true ∧ (acc ∩ E.owner_set a) ≠ ∅
    · have hstep : alias_step E acc a = insert a acc := by
        simp only [alias_step, if_pos hc]
      have hFa : E.is_composite a = true ∧ (live0 ∩ E.owner_set a) ≠ ∅ := by
        refine ⟨hc.1, ?_⟩
        rcases Finset.nonempty_iff_ne_empty.mpr hc.2 with ⟨t, ht⟩
        rcases Finset.mem_inter.mp ht with ⟨hta, hto⟩
        rcases hinv t hta with htl0 | ⟨htc, htne⟩
        · exact Finset.nonempty_iff_ne_empty.mp ⟨t, Finset.mem_inter.mpr ⟨htl0, hto⟩⟩
        · rcases Finset.nonempty_iff_ne_empty.mpr htne with ⟨u, hu⟩
          rcases Finset.mem_inter.mp hu with ⟨hul, hut⟩
          have hua : u ∈ E.owner_set a := hWF a t hto htc hut
          exact Finset.nonempty_iff_ne_empty.mp ⟨u, Finset.mem_inter.mpr ⟨hul, hua⟩⟩
      have hsub2 : live0 ⊆ insert a acc := hsub.trans (Finset.subset_insert a acc)
      have hinv2 : ∀ x ∈ insert a acc,
          x ∈ live0 ∨ (E.is_composite x = true ∧ (live0 ∩ E.owner_set x) ≠ ∅) := by
        intro x hx
        rcases Finset.mem_insert.mp hx with rfl | hx2
        · exact Or.inr hFa
        · exact hinv x hx2
      have h := ih (insert a acc) hsub2 hinv2 s
      rw [List.foldl_cons, hstep, h]
      simp only [Finset.mem_insert, List.mem_cons]
      constructor
      · rintro ((rfl | hsacc) | ⟨hstl, hrest⟩)
        · exact Or.inr ⟨Or.inl rfl, hFa⟩
        · exact Or.inl hsacc
        · exact Or.inr ⟨Or.inr hstl, hrest⟩
      · rintro (hsacc | ⟨rfl | hstl, hrest⟩)
        · exact Or.inl (Or.inr hsacc)
        · exact Or.inl (Or.inl rfl)
        · exact Or.inr ⟨hstl, hrest⟩
    · have hstep : alias_step E acc a = acc := by
        simp only [alias_step, if_neg hc]
      have h := ih acc hsub hinv s
      rw [List.foldl_cons, hstep, h]
      simp only [List.mem_cons]
      constructor
      · rintro (hsacc | ⟨hstl, hrest⟩)
        · exact Or.inl hsacc
        · exact Or.inr ⟨Or.inr hstl, hrest⟩
      · rintro (hsacc | ⟨rfl | hstl, hrest⟩)
        · exact Or.inl hsacc
        · exfalso
          apply hc
          refine ⟨hrest.1, ?_⟩
          rcases Finset.nonempty_iff_ne_empty.mpr hrest.2 with ⟨t, ht⟩
          rcases Finset.mem_inter.mp ht with ⟨htl, hto⟩
          exact Finset.nonempty_iff_ne_empty.mp ⟨t, Finset.mem_inter.mpr ⟨hsub htl, hto⟩⟩
        · exact Or.inr ⟨hstl, hrest⟩

theorem determine_aliased_symbols_mem (E : SymEnv) (hWF : OwnerClosed E) (scope : Scope)
    (order : List Nat) (horder : order.toFinset = scope.modified)
    (node_defined_in : Finset Nat) (block_live_in : Option (Finset Nat)) (s : Nat) :
    s ∈ determine_aliased_symbols E scope order node_defined_in block_live_in ↔
      (s ∈ scope.modified ∧ s ∈ node_defined_in ∧
        spec_closure_adjusted_live E (block_live_in.getD ∅) s) := by
  have h := adjust_live_in_mem E hWF (block_live_in.getD ∅) order (block_live_in.getD ∅)
    (Finset.Subset.refl _) (fun x hx => Or.inl hx) s
  simp only [determine_aliased_symbols, adjust_live_in]
  rw [Finset.mem_inter, Finset.mem_inter, h]
  unfold spec_closure_adjusted_live
  constructor
  · rintro ⟨⟨hm, hd⟩, hl | ⟨ho, hcomp, hne⟩⟩
    · exact ⟨hm, hd, Or.inl hl⟩
    · refine ⟨hm, hd, Or.inr ⟨hcomp, ?_⟩⟩
      rcases Finset.nonempty_iff_ne_empty.mpr hne with ⟨t, ht⟩
      rcases Finset.mem_inter.mp ht with ⟨htl, hto⟩
      exact ⟨t, hto, htl⟩
  · rintro ⟨hm, hd, hl | ⟨hcomp, t, hto, htl⟩⟩
    · exact ⟨⟨hm, hd⟩, Or.inl hl⟩
    · refine ⟨⟨hm, hd⟩, Or.inr ⟨?_, hcomp, ?_⟩⟩
      · rw [← horder] at hm
        exact List.mem_toFinset.mp hm
      · exact Finset.nonempty_iff_ne_empty.mp ⟨t, Finset.mem_inter.mpr ⟨htl, hto⟩⟩

/-- C4: per branch, a symbol needs aliasing iff it is modified in that
branch, defined before the conditional, and live at the branch's first
statement under the closure-adjusted rule (a composite is live-in when
some owner-set member is live-in); the fresh names are generated against
that branch's referenced set.  Requires the symbol well-formedness of
`OwnerClosed` and an enumeration of each branch's modified set. -/
theorem branch_aliasing_characterization (E : SymEnv)
    (namer : String → Finset Nat → String) (node : IfNode) (hWF : OwnerClosed E)
    (hob : node.body_modified_order.toFinset = node.body_scope.modified)
    (hoe : node.orelse_modified_order.toFinset = node.orelse_scope.modified) (s : Nat) :
    (s ∈ (visit_If E namer node).need_alias_body ↔
      (s ∈ node.body_scope.modified ∧ s ∈ node.defined_in ∧
        spec_closure_adjusted_live E (node.body_block_live_in.getD ∅) s)) ∧
    (s ∈ (visit_If E namer node).need_alias_orelse ↔
      (s ∈ node.orelse_scope.modified ∧ s ∈ node.defined_in ∧
        spec_closure_adjusted_live E (node.orelse_block_live_in.getD ∅) s)) ∧
    ((visit_If E namer node).body_def.aliased_new =
      (visit_If E namer node).body_def.aliased_orig.map
        (fun t => namer (E.ssf t) node.body_scope.referenced)) ∧
    ((visit_If E namer node).orelse_def.aliased_new =
      (visit_If E namer node).orelse_def.aliased_orig.map
        (fun t => namer (E.ssf t) node.orelse_scope.referenced)) := by
  refine ⟨?_, ?_, rfl, rfl⟩
  · exact determine_aliased_symbols_mem E hWF node.body_scope node.body_modified_order hob
      node.defined_in node.body_block_live_in s
  · exact determine_aliased_symbols_mem E hWF node.orelse_scope node.orelse_modified_order hoe
      node.defined_in node.orelse_block_live_in s

theorem compositeEnv_owner_closed : OwnerClosed compositeEnv := by
  intro s t ht hc
  by_cases hs : s = 1
  · subst hs
    simp [compositeEnv] at ht
    subst ht
    simp [compositeEnv] at hc
  · simp [compositeEnv, hs] at ht

/-- C4 witness: the composite symbol `x.a` (symbol 1), modified in the
body, defined before the conditional, with its root `x` live at the first
body statement, needs aliasing in the body branch. -/
theorem branch_aliasing_characterization_witness :
    1 ∈ (visit_If compositeEnv sampleNamer aliasIfNode).need_alias_body :=
  ((branch_aliasing_characterization compositeEnv sampleNamer aliasIfNode
      compositeEnv_owner_closed (by decide) (by decide) 1).1).mpr
    ⟨by decide, by decide, Or.inr ⟨by decide, 0, by decide, by decide⟩⟩

theorem adjust_live_in_empty (E : SymEnv) (order : List Nat) :
    adjust_live_in E order ∅ = ∅ := by
  induction order with
  | nil => rfl
  | cons a tl ih =>
    have hstep : alias_step E ∅ a = ∅ := by
      simp [alias_step]
    simpa [adjust_live_in, List.foldl_cons, hstep] using ih

theorem create_cond_branch_ret_items (n : String) (ao : List Nat) (an : List String)
    (rs : List CondRet) : (create_cond_branch n ao an rs).ret.items = rs := by
  match rs with
  | [] => rfl
  | [r] => rfl
  | r1 :: r2 :: rest => rfl

theorem create_cond_branch_name (n : String) (ao : List Nat) (an : List String)
    (rs : List CondRet) : (create_cond_branch n ao an rs).name = n := rfl

theorem create_cond_branch_aliased_orig (n : String) (ao : List Nat) (an : List String)
    (rs : List CondRet) : (create_cond_branch n ao an rs).aliased_orig = ao := rfl

theorem create_cond_branch_aliased_new (n : String) (ao : List Nat) (an : List String)
    (rs : List CondRet) : (create_cond_branch n ao an rs).aliased_new = an := rfl

/-- C7: the for rewriter fails with an internal-consistency error exactly
when the early-stopping annotation is present and the computed loop state
is empty; otherwise it succeeds with the early-stopping, with-state, or
without-state template as the conditions dictate. -/
theorem for_extra_test_empty_state_error (E : SymEnv)
    (namer : String → Finset Nat → String) (node : LoopNode) (het : Bool) :
    ((∃ e, visit_For E namer node het = .error e) ↔
      ((get_loop_state E node).loop_state = ∅ ∧ het = true)) ∧
    (het = true → (get_loop_state E node).loop_state ≠ ∅ →
      ∃ r, visit_For E namer node het = .ok r ∧
        ∃ tn bn ps st, r.core = .earlyStopping tn bn ps st) ∧
    (het = false → (get_loop_state E node).loop_state ≠ ∅ →
      ∃ r, visit_For E namer node het = .ok r ∧
        ∃ bn ps st, r.core = .withState bn ps st) ∧
    (het = false → (get_loop_state E node).loop_state = ∅ →
      ∃ r, visit_For E namer node het = .ok r ∧ ∃ bn, r.core = .withoutState bn) := by
  have hnil : symList (get_loop_state E node).loop_state = [] ↔
      (get_loop_state E node).loop_state = ∅ := symList_eq_nil _
  refine ⟨⟨?_, ?_⟩, ?_, ?_, ?_⟩
  · rintro ⟨e, he⟩
    by_cases hls : (get_loop_state E node).loop_state = ∅
    · refine ⟨hls, ?_⟩
      by_cases hhet : het = true
      · exact hhet
      · exfalso
        have hsl0 := hnil.mpr hls
        simp [visit_For, hsl0, hhet] at he
    · exfalso
      have hsl : symList (get_loop_state E node).loop_state ≠ [] :=
        fun hh => hls (hnil.mp hh)
      by_cases hhet : het = true
      · simp [visit_For, hsl, hhet] at he
      · simp [visit_For, hsl, hhet] at he
  · rintro ⟨hls, hhet⟩
    subst hhet
    have hsl0 : symList (get_loop_state E node).loop_state = [] := hnil.mpr hls
    refine ⟨"Early stopping (e.g. break and/or return) should create state variables.", ?_⟩
    simp [visit_For, hsl0]
  · intro hhet hne
    subst hhet
    have hsl : symList (get_loop_state E node).loop_state ≠ [] :=
      fun hh => hne (hnil.mp hh)
    rcases hv : visit_For E namer node true with e | r
    · exfalso
      simp [visit_For, hsl] at hv
    · refine ⟨r, rfl, ?_⟩
      simp [visit_For, hsl] at hv
      subst hv
      exact ⟨_, _, _, _, rfl⟩
  · intro hhet hne
    subst hhet
    have hsl : symList (get_loop_state E node).loop_state ≠ [] :=
      fun hh => hne (hnil.mp hh)
    rcases hv : visit_For E namer node false with e | r
    · exfalso
      simp [visit_For, hsl] at hv
    · refine ⟨r, rfl, ?_⟩
      simp [visit_For, hsl] at hv
      subst hv
      exact ⟨_, _, _, rfl⟩
  · intro hhet hls
    subst hhet
    have hsl0 : symList (get_loop_state E node).loop_state = [] := hnil.mpr hls
    rcases hv : visit_For E namer node false with e | r
    · exfalso
      simp [visit_For, hsl0] at hv
    · refine ⟨r, rfl, ?_⟩
      simp [visit_For, hsl0] at hv
      subst hv
      exact ⟨_, rfl⟩

/-- C7 witness: a for loop with the early-stopping annotation but empty
loop state produces the internal-consistency error. -/
theorem for_extra_test_empty_state_error_witness :
    ∃ e, visit_For sampleEnv sampleNamer emptyLoopNode true = .error e :=
  ((for_extra_test_empty_state_error sampleEnv sampleNamer emptyLoopNode true).1).mpr
    ⟨by decide, rfl⟩

/-- C8: when the returned-from-cond set is empty, both branch callables
return the staging placeholder that forwards the stored test-result name,
and the conditional primitive is called bare, its result unassigned. -/
theorem cond_empty_return_placeholder (E : SymEnv)
    (namer : String → Finset Nat → String) (node : IfNode)
    (h : returned_from_cond E node.body_scope.modified node.orelse_scope.modified
        node.live_out = ∅) :
    ((visit_If E namer node).body_def.ret =
      .one (.placeholder ((visit_If E namer node).cond_var_name))) ∧
    ((visit_If E namer node).orelse_def.ret =
      .one (.placeholder ((visit_If E namer node).cond_var_name))) ∧
    ((visit_If E namer node).cond_expr =
      .bare ((visit_If E namer node).cond_var_name)
        ((visit_If E namer node).body_def.name)
        ((visit_If E namer node).orelse_def.name)) := by
  have hsl : symList (returned_from_cond E node.body_scope.modified
      node.orelse_scope.modified node.live_out) = [] := (symList_eq_nil _).mpr h
  refine ⟨?_, ?_, ?_⟩ <;>
    simp [visit_If, hsl, create_cond_branch, create_cond_expr]

/-- C8 witness: a conditional that modifies nothing produces placeholder
returns in both branch callables and a bare primitive call. -/
theorem cond_empty_return_placeholder_witness :
    ((visit_If sampleEnv sampleNamer emptyIfNode).body_def.ret =
      .one (.placeholder ((visit_If sampleEnv sampleNamer emptyIfNode).cond_var_name))) ∧
    ((visit_If sampleEnv sampleNamer emptyIfNode).orelse_def.ret =
      .one (.placeholder ((visit_If sampleEnv sampleNamer emptyIfNode).cond_var_name))) ∧
    ((visit_If sampleEnv sampleNamer emptyIfNode).cond_expr =
      .bare ((visit_If sampleEnv sampleNamer emptyIfNode).cond_var_name)
        ((visit_If sampleEnv sampleNamer emptyIfNode).body_def.name)
        ((visit_If sampleEnv sampleNamer emptyIfNode).orelse_def.name)) :=
  cond_empty_return_placeholder sampleEnv sampleNamer emptyIfNode (by decide)

/-- C9: with a non-empty returned set, each branch callable returns the
returned symbols with the branch's fresh aliased name substituted exactly
for the symbols aliased in that branch, and the primitive call's result
is assigned back to the original symbols. -/
theorem cond_nonempty_return_aliasing (E : SymEnv)
    (namer : String → Finset Nat → String) (node : IfNode)
    (h : returned_from_cond E node.body_scope.modified node.orelse_scope.modified
        node.live_out ≠ ∅) :
    ((visit_If E namer node).body_def.ret.items =
      (symList (returned_from_cond E node.body_scope.modified node.orelse_scope.modified
          node.live_out)).map (fun s =>
        if s ∈ (visit_If E namer node).need_alias_body
        then CondRet.name (namer (E.ssf s) node.body_scope.referenced)
        else CondRet.sym s)) ∧
    ((visit_If E namer node).orelse_def.ret.items =
      (symList (returned_from_cond E node.body_scope.modified node.orelse_scope.modified
          node.live_out)).map (fun s =>
        if s ∈ (visit_If E namer node).need_alias_orelse
        then CondRet.name (namer (E.ssf s) node.orelse_scope.referenced)
        else CondRet.sym s)) ∧
    (∃ cr, (visit_If E namer node).cond_expr =
        .assigned cr ((visit_If E namer node).cond_var_name)
          ((visit_If E namer node).body_def.name)
          ((visit_If E namer node).orelse_def.name) ∧
      cr.syms = symList (returned_from_cond E node.body_scope.modified
        node.orelse_scope.modified node.live_out)) := by
  have hsl : symList (returned_from_cond E node.body_scope.modified
      node.orelse_scope.modified node.live_out) ≠ [] :=
    fun hh => h ((symList_eq_nil _).mp hh)
  refine ⟨?_, ?_, ?_⟩
  · simp only [visit_If, create_cond_branch_ret_items, if_neg hsl]
  · simp only [visit_If, create_cond_branch_ret_items, if_neg hsl]
  · rcases hrl : symList (returned_from_cond E node.body_scope.modified
        node.orelse_scope.modified node.live_out) with _ | ⟨a, tl⟩
    · exact absurd hrl hsl
    · rcases tl with _ | ⟨b, tl2⟩
      · refine ⟨.single a, ?_, ?_⟩
        · simp only [visit_If, create_cond_expr, hrl, create_cond_branch_name]
        · simp [CondResults.syms, hrl]
      · refine ⟨.tuple (a :: b :: tl2), ?_, ?_⟩
        · simp only [visit_If, create_cond_expr, hrl, create_cond_branch_name]
        · simp [CondResults.syms, hrl]

/-- C9 witness: in a conditional returning the single symbol `y`, aliased
in neither branch, both callables return `y` itself and the call result is
assigned back to `y`. -/
theorem cond_nonempty_return_aliasing_witness :
    ((visit_If sampleEnv sampleNamer ifScenarioNode).body_def.ret.items =
      (symList (returned_from_cond sampleEnv ifScenarioNode.body_scope.modified
          ifScenarioNode.orelse_scope.modified ifScenarioNode.live_out)).map (fun s =>
        if s ∈ (visit_If sampleEnv sampleNamer ifScenarioNode).need_alias_body
        then CondRet.name (sampleNamer (sampleEnv.ssf s) ifScenarioNode.body_scope.referenced)
        else CondRet.sym s)) ∧
    ((visit_If sampleEnv sampleNamer ifScenarioNode).orelse_def.ret.items =
      (symList (returned_from_cond sampleEnv ifScenarioNode.body_scope.modified
          ifScenarioNode.orelse_scope.modified ifScenarioNode.live_out)).map (fun s =>
        if s ∈ (visit_If sampleEnv sampleNamer ifScenarioNode).need_alias_orelse
        then CondRet.name (sampleNamer (sampleEnv.ssf s) ifScenarioNode.orelse_scope.referenced)
        else CondRet.sym s)) ∧
    (∃ cr, (visit_If sampleEnv sampleNamer ifScenarioNode).cond_expr =
        .assigned cr ((visit_If sampleEnv sampleNamer ifScenarioNode).cond_var_name)
          ((visit_If sampleEnv sampleNamer ifScenarioNode).body_def.name)
          ((visit_If sampleEnv sampleNamer ifScenarioNode).orelse_def.name) ∧
      cr.syms = symList (returned_from_cond sampleEnv ifScenarioNode.body_scope.modified
        ifScenarioNode.orelse_scope.modified ifScenarioNode.live_out)) :=
  cond_nonempty_return_aliasing sampleEnv sampleNamer ifScenarioNode (by decide)

/-- C10: when the else block is empty, no symbol needs aliasing in the
else branch, and the synthesized else callable carries no aliased
bindings. -/
theorem empty_orelse_no_aliasing (E : SymEnv)
    (namer : String → Finset Nat → String) (node : IfNode)
    (h : node.orelse_block_live_in = none) :
    (visit_If E namer node).need_alias_orelse = ∅ ∧
    (visit_If E namer node).orelse_def.aliased_orig = [] ∧
    (visit_If E namer node).orelse_def.aliased_new = [] := by
  have hdet : determine_aliased_symbols E node.orelse_scope node.orelse_modified_order
      node.defined_in node.orelse_block_live_in = ∅ := by
    rw [determine_aliased_symbols, h]
    simp [adjust_live_in_empty]
  refine ⟨hdet, ?_, ?_⟩ <;>
    simp [visit_If, hdet, symList, create_cond_branch_aliased_orig,
      create_cond_branch_aliased_new]

/-- C10 witness: the no-else conditional produces an else callable with no
aliased bindings. -/
theorem empty_orelse_no_aliasing_witness :
    (visit_If sampleEnv sampleNamer ifScenarioNode).need_alias_orelse = ∅ ∧
    (visit_If sampleEnv sampleNamer ifScenarioNode).orelse_def.aliased_orig = [] ∧
    (visit_If sampleEnv sampleNamer ifScenarioNode).orelse_def.aliased_new = [] :=
  empty_orelse_no_aliasing sampleEnv sampleNamer ifScenarioNode rfl
